import Mathlib

/-!
Shallow embedding of the dawnyawn agent core:
the mission state machine (`TaskManager.run`, `_load_state`, `_save_state`,
`_generate_final_report` in agent/task_manager.py), the action chooser
(`ThoughtEngine.choose_next_action` in agent/thought_engine.py), the execution
server endpoints (`execute_in_session`, `end_session` in
kali_execution_server/kali_server.py), and the sandbox driver
(`KaliContainer.send_command_and_get_output`, `KaliContainer.destroy` in
kali_execution_server/kali_driver/driver.py).

External collaborators (the LLM client, the HTTP transport, the operator's
keyboard answers) are modelled as oracles supplied to the functions; Python
exceptions are modelled as `Except` errors or explicit error components.
-/

namespace DawnYawn

/-- Modelled from the spec: `TaskStatus` lives in models/task_node.py, which is
not part of the provided sources.  The spec's data model gives
`status ∈ {PENDING, COMPLETED}`. -/
inductive TaskStatus
  | pending
  | completed
  deriving DecidableEq, Repr

/-- Modelled from the spec: `TaskNode` lives in models/task_node.py, which is
not part of the provided sources.  The spec's data model gives one planned
unit as `task_id` (int), `description` (string), `status` (enum). -/
structure TaskNode where
  task_id : Int
  description : String
  status : TaskStatus
  deriving DecidableEq, Repr

/-- One entry of `mission_history`: the dict
`{"command": ..., "observation": ...}` appended by `TaskManager.run`.
The observation is the `file_content` returned by the execution layer and can
be Python `None`, hence `Option`. -/
structure HistoryEntry where
  command : String
  observation : Option String
  deriving DecidableEq, Repr

/-- One raw element of the checkpoint's `"plan"` array, as seen by
`TaskNode(**task_data)` inside `_load_state`.
`good t` is data that reconstructs the node `t`; `bad` is data that is not a
mapping, so `TaskNode(**task_data)` raises `TypeError` (which `_load_state`
catches). -/
inductive TaskData
  | good (t : TaskNode)
  | bad
  deriving DecidableEq, Repr

/-- A checkpoint record whose JSON parsed to an object: the `goal`, `plan`
and `mission_history` fields read by `_load_state` (missing fields default to
the empty list via `dict.get`, which this representation subsumes). -/
structure RawCheckpoint where
  goal : String
  planData : List TaskData
  mission_history : List HistoryEntry
  deriving DecidableEq, Repr

/-- The possible contents of the on-disk session file `mission_session.json`:
`garbled` is text that fails `json.load` (raising `json.JSONDecodeError`,
which `_load_state` catches); `nonDict` is well-formed JSON whose top level is
not an object (e.g. `[]`), on which `state.get("goal")` raises
`AttributeError`; `parsed r` is a JSON object. -/
inductive FileData
  | garbled
  | nonDict
  | parsed (r : RawCheckpoint)
  deriving DecidableEq, Repr

/-- The list comprehension `[TaskNode(**task_data) for task_data in ...]`:
builds the plan in order, raising `TypeError` (modelled as `none`) at the
first element that is not a mapping. -/
def parsePlan : List TaskData → Option (List TaskNode)
  | [] => some []
  | TaskData.good t :: rest => (parsePlan rest).map (t :: ·)
  | TaskData.bad :: _ => none

/-- What `TaskManager._load_state` leaves behind: whether it returned `True`
(resume), the session file after the call, the fields `self.plan` and
`self.mission_history`, and whether a warning/error was logged. -/
structure LoadOutcome where
  resumed : Bool
  fs : Option FileData
  plan : List TaskNode
  hist : List HistoryEntry
  warned : Bool
  deriving DecidableEq, Repr

/-- `TaskManager._load_state`, as a function of the current goal and the
session-file contents (`none` = file absent).  `Except.error` is an exception
escaping `_load_state`: the method's `except` clause catches only
`json.JSONDecodeError` and `TypeError`, so the `AttributeError` raised by
`state.get("goal")` on a non-object JSON document is uncaught. -/
def load_state (goal : String) (fs0 : Option FileData) : Except String LoadOutcome :=
  match fs0 with
  | none => Except.ok ⟨false, none, [], [], false⟩
  | some FileData.garbled => Except.ok ⟨false, fs0, [], [], true⟩
  | some FileData.nonDict => Except.error "AttributeError"
  | some (FileData.parsed r) =>
    if r.goal ≠ goal then
      Except.ok ⟨false, none, [], [], true⟩
    else
      match parsePlan r.planData with
      | none => Except.ok ⟨false, fs0, [], [], true⟩
      | some plan => Except.ok ⟨true, fs0, plan, r.mission_history, false⟩

/-- The record written by `TaskManager._save_state`: goal, the serialized
plan, and the history. -/
def save_content (goal : String) (plan : List TaskNode) (hist : List HistoryEntry) : FileData :=
  FileData.parsed ⟨goal, plan.map TaskData.good, hist⟩

/-- The JSON object the ThoughtEngine must produce: keys `tool_name` and
`tool_input` (class `ToolSelection` in agent/thought_engine.py). -/
structure ToolSelection where
  tool_name : String
  tool_input : String
  deriving DecidableEq, Repr

/-- Outcome of `TaskManager._update_plan_status` on one iteration:
`ok (some p)` is `ThoughtEngine.update_plan_status` returning the list `p`;
`ok none` is it returning Python `None` (its own parse/validation failure);
`interrupt` is an `APITimeoutError`/`KeyboardInterrupt` escaping the call,
which `run` catches around the whole loop. -/
inductive PlanUpd
  | ok (np : Option (List TaskNode))
  | interrupt
  deriving DecidableEq, Repr

/-- Oracle outcome for one iteration of the execution loop:
`interrupt` is an `APITimeoutError`/`KeyboardInterrupt` raised while asking
`choose_next_action`; `act a obs pu` is the chosen action `a`, the
`file_content` observation the loop body's `(filename, file_content)`
unpacking expects from the execution layer (`none` = Python `None`), and the
result of the subsequent plan update.  The `act` case with a non-terminal
action follows the loop body as written; the shipped session-based
`McpClient.execute_command` makes the call itself raise `TypeError`
(see `loop_execute_call`), so runs of the shipped code only ever reach the
`interrupt` and sentinel branches — this oracle models a superset of the
reachable behavior. -/
inductive StepOutcome
  | interrupt
  | act (a : ToolSelection) (obs : Option String) (pu : PlanUpd)

/-- Oracle outcome of the planning phase: `raises` is an
`APITimeoutError`/`KeyboardInterrupt` during `create_plan` or the approval
prompt; `made p` is `AgentScheduler.create_plan` returning the plan `p`
(possibly empty). -/
inductive PlanPhase
  | raises
  | made (p : List TaskNode)

/-- The external collaborators of one `TaskManager.run` call: the planning
phase outcome, the operator's approval answer, and the per-iteration loop
oracle (indexed by the number of `choose_next_action` calls already made). -/
structure Env where
  planPhase : PlanPhase
  approve : Bool
  steps : Nat → StepOutcome

/-- The loop state at the moment `choose_next_action` is called: the call
index and the current `self.plan`, `self.mission_history`, and session file. -/
structure ReqState where
  idx : Nat
  plan : List TaskNode
  hist : List HistoryEntry
  fs : Option FileData
  deriving DecidableEq, Repr

/-- Result of the execution loop: final plan/history/session file, the list
of states at which an action was requested, whether the loop was left by a
caught interruption, and whether the model's fuel ran out (never happens for
the fuel `run_model` supplies, see `execLoop_fuel_enough`). -/
structure LoopResult where
  plan : List TaskNode
  hist : List HistoryEntry
  fs : Option FileData
  requests : List ReqState
  interrupted : Bool
  fuelOut : Bool
  deriving DecidableEq, Repr

/-- `if updated_plan: self.plan = updated_plan` after
`_update_plan_status`: `None` and the empty list are falsy, so the old plan
is kept for both. -/
def planAfter (plan : List TaskNode) : Option (List TaskNode) → List TaskNode
  | some np => if np.isEmpty then plan else np
  | none => plan

/-- The `while True` execution loop of `TaskManager.run`.  Each iteration:
ask `choose_next_action` (oracle `env.steps i`); on the sentinel
`finish_mission`, append `{"command": "finish_mission", "observation":
tool_input}` and break; otherwise execute the command, append
`{"command": tool_input, "observation": file_content}`, run
`_update_plan_status`, `_save_state`, and break once
`len(self.mission_history) >= 20`.  A caught `APITimeoutError` /
`KeyboardInterrupt` leaves the loop with `interrupted = true`.  The `fuel`
argument only bounds the recursion; `execLoop_fuel_enough` shows the bound
`21` used by `run_model` is never reached. -/
def execLoop (goal : String) (env : Env) :
    Nat → Nat → List TaskNode → List HistoryEntry → Option FileData → LoopResult
  | 0, _, plan, hist, fs => ⟨plan, hist, fs, [], false, true⟩
  | fuel + 1, i, plan, hist, fs =>
    match env.steps i with
    | StepOutcome.interrupt => ⟨plan, hist, fs, [⟨i, plan, hist, fs⟩], true, false⟩
    | StepOutcome.act a obs pu =>
      if a.tool_name = "finish_mission" then
        ⟨plan, hist ++ [⟨"finish_mission", some a.tool_input⟩], fs,
          [⟨i, plan, hist, fs⟩], false, false⟩
      else
        match pu with
        | PlanUpd.interrupt =>
          ⟨plan, hist ++ [⟨a.tool_input, obs⟩], fs, [⟨i, plan, hist, fs⟩], true, false⟩
        | PlanUpd.ok np =>
          let plan' := planAfter plan np
          let hist' := hist ++ [⟨a.tool_input, obs⟩]
          let fs' := some (save_content goal plan' hist')
          if 20 ≤ hist'.length then
            ⟨plan', hist', fs', [⟨i, plan, hist, fs⟩], false, false⟩
          else
            let r := execLoop goal env fuel (i + 1) plan' hist' fs'
            ⟨r.plan, r.hist, r.fs, ⟨i, plan, hist, fs⟩ :: r.requests, r.interrupted, r.fuelOut⟩

/-- The JSON observation dict of the shipped session-based
`McpClient.execute_command` (services/mcp_client.py): status, key finding,
and full output. -/
structure McpObservation where
  status : String
  key_finding : String
  full_output : String
  deriving DecidableEq, Repr

/-- The body of the shipped `McpClient.execute_command(self, session_id,
command)` in services/mcp_client.py: posts `{session_id, command}` through
the transport and returns the JSON observation dict, or a FAILURE
observation on a `requests` exception — a dict, not a `(filename,
file_content)` tuple. -/
def execute_command (transport : String → String → Except String McpObservation)
    (session_id command : String) : McpObservation :=
  match transport session_id command with
  | Except.ok obs => obs
  | Except.error e => ⟨"FAILURE", "Agent-side connection error: " ++ e, ""⟩

/-- The required positional parameters of the shipped
`McpClient.execute_command`, after `self`. -/
def execute_command_params : List String := ["session_id", "command"]

/-- Python positional-argument binding at call time: a call raises
`TypeError` before the callee's body runs when the positional arguments do
not match the required positional parameters. -/
def bindArgs (params args : List String) : Except String (List (String × String)) :=
  if args.length < params.length then
    Except.error "TypeError: missing required positional argument"
  else if params.length < args.length then
    Except.error "TypeError: too many positional arguments"
  else Except.ok (params.zip args)

/-- The execution-layer call of the loop body, task_manager.py line 114:
`self.mcp_client.execute_command(action.tool_input)` — one positional
argument bound against the shipped client's two required parameters, so the
call raises `TypeError` before any request is made. -/
def loop_execute_call (tool_input : String) : Except String (List (String × String)) :=
  bindArgs execute_command_params [tool_input]

/-- `create_report` in reporting/report_generator.py over this model's
histories: writes the report header and the per-step execution log (each
step's observation rendering guards its own `AttributeError`), then computes
the final finding: when the last entry's command is `finish_mission` it
evaluates `history[-1]['observation'].get('key_finding', ...)`.  The loop
and the checkpoint model store only Python `None` or string observations,
and neither has a `.get` attribute, so that step raises `AttributeError`
(leaving a partially written report file) instead of completing the report.
Returns the history of a completed report, or the escaping exception. -/
def create_report (history : List HistoryEntry) : Except String (List HistoryEntry) :=
  match history.getLast? with
  | some last =>
    if last.command = "finish_mission" then Except.error "AttributeError"
    else Except.ok history
  | none => Except.ok history

/-- `TaskManager._generate_final_report`: return with a warning (no report)
when no actions were taken, otherwise delegate to `create_report`.
`ok none` = no report; `ok (some h)` = a completed report over `h`; an
error is the exception escaping the report step. -/
def generate_final_report (history : List HistoryEntry) :
    Except String (Option (List HistoryEntry)) :=
  if history.isEmpty then Except.ok none
  else (create_report history).map some

/-- What one `TaskManager.run` call leaves behind: the session file after the
call, the final `mission_history` and `plan`, whether the execution loop was
entered, whether `_generate_final_report` ran, the history of a completed
final report (`none` when no complete report was produced), the request
trace, whether the loop ended by a caught interruption, and the exception
escaping the `finally` block, if any. -/
structure RunResult where
  fsFinal : Option FileData
  history : List HistoryEntry
  plan : List TaskNode
  enteredLoop : Bool
  reportInvoked : Bool
  reported : Option (List HistoryEntry)
  requests : List ReqState
  interrupted : Bool
  raised : Option String
  deriving DecidableEq, Repr

/-- The `finally` block of `TaskManager.run`: `_generate_final_report()`
followed by `os.remove(SESSION_FILE)`.  An exception raised by the report
step aborts the rest of the `finally` suite before the removal, so the
session file survives with the loop's last contents and the exception
propagates out of `run` (recorded in `raised`). -/
def finalize (r : LoopResult) : RunResult where
  fsFinal :=
    match generate_final_report r.hist with
    | Except.ok _ => none
    | Except.error _ => r.fs
  history := r.hist
  plan := r.plan
  enteredLoop := true
  reportInvoked := true
  reported :=
    match generate_final_report r.hist with
    | Except.ok rep => rep
    | Except.error _ => none
  requests := r.requests
  interrupted := r.interrupted
  raised :=
    match generate_final_report r.hist with
    | Except.ok _ => none
    | Except.error e => some e

/-- An early `return` from the planning phase of `TaskManager.run` (empty
plan, operator rejection, or exception during planning): no report, no
session-file cleanup, nothing raised. -/
def abortResult (fs : Option FileData) (plan : List TaskNode) : RunResult :=
  ⟨fs, [], plan, false, false, none, [], false, none⟩

/-- `TaskManager.run`: `_load_state`; on a fresh start, the planning phase
(`create_plan`, empty-plan check, operator approval, `_save_state`) with
early returns; then the execution loop wrapped in
`try/except (APITimeoutError, KeyboardInterrupt)/finally`.  `Except.error`
is an exception escaping `run` itself (from `_load_state`). -/
def run_model (goal : String) (env : Env) (fs0 : Option FileData) : Except String RunResult :=
  match load_state goal fs0 with
  | Except.error e => Except.error e
  | Except.ok ld =>
    if ld.resumed then
      Except.ok (finalize (execLoop goal env 21 0 ld.plan ld.hist ld.fs))
    else
      match env.planPhase with
      | PlanPhase.raises => Except.ok (abortResult ld.fs [])
      | PlanPhase.made p =>
        if p.isEmpty then Except.ok (abortResult ld.fs p)
        else if env.approve = false then Except.ok (abortResult ld.fs p)
        else
          Except.ok (finalize (execLoop goal env 21 0 p []
            (some (save_content goal p []))))

/-- Index of the last occurrence of `c` in a character list, if any. -/
def lastIndexOf (c : Char) : List Char → Option Nat
  | [] => none
  | x :: xs =>
    match lastIndexOf c xs with
    | some n => some (n + 1)
    | none => if x = c then some 0 else none

/-- The list up to and including the last occurrence of `c` (the whole list
if `c` does not occur). -/
def takeThrough (c : Char) (l : List Char) : List Char :=
  match lastIndexOf c l with
  | some n => l.take (n + 1)
  | none => l

/-- The search of `re.search(r'(\[.*\]|\{.*\})', s, re.DOTALL)`: the
leftmost position opening `[` with a later `]` (greedy `.*` reaching the last
one), else the leftmost `\x7b` with a later `\x7d`; both alternatives are
tried at each position in order, but their opening characters differ so only
the position matters. -/
def cleanScan : List Char → Option (List Char)
  | [] => none
  | x :: xs =>
    if x = '[' ∧ xs.contains ']' then some (x :: takeThrough ']' xs)
    else if x = '\x7b' ∧ xs.contains '\x7d' then some (x :: takeThrough '\x7d' xs)
    else cleanScan xs

/-- `_clean_json_response` in agent/thought_engine.py: extract the regex
match if there is one, otherwise return the string unchanged. -/
def clean_json_response (s : String) : String :=
  match cleanScan s.data with
  | some l => String.mk l
  | none => s

/-- The model reply inside `choose_next_action`: `timeout` is an
`APITimeoutError` from the chat-completion call (not caught there);
`content s` is the returned message content. -/
inductive LLMResp
  | timeout
  | content (s : String)

/-- `ThoughtEngine.choose_next_action`, given a parse oracle standing for
`ToolSelection.model_validate_json` (pydantic; `none` = it raises
`ValidationError` or `json.JSONDecodeError`).  The `except` clause maps any
such parse failure to the sentinel `finish_mission` action with a failure
message; an `APITimeoutError` propagates to the caller. -/
def choose_next_action (parse : String → Option ToolSelection) (resp : LLMResp) :
    Except String ToolSelection :=
  match resp with
  | LLMResp.timeout => Except.error "APITimeoutError"
  | LLMResp.content s =>
    match parse (clean_json_response s) with
    | some sel => Except.ok sel
    | none =>
      Except.ok ⟨"finish_mission", "Mission failed: The AI produced an invalid JSON response."⟩

/-- Docker container status as reported by `reload`; `KaliContainer.destroy`
stops the container when the status is `running` or `created`. -/
inductive ContStatus
  | running
  | created
  | exited
  deriving DecidableEq, Repr

/-- Docker SDK exceptions relevant to `destroy`: `docker.errors.NotFound`
(container already gone) and any other `docker.errors.APIError` from the
daemon. -/
inductive DockerErr
  | notFound
  | apiError
  deriving DecidableEq, Repr

/-- The docker daemon's world as `destroy` sees it: each container id is
either gone (`none`) or has a status, and `stopError` says whether the
daemon answers `stop` with a server-side `APIError`. -/
structure DockerWorld where
  status : Nat → Option ContStatus
  stopError : Bool

/-- `container.reload()`: raises `NotFound` when the container is gone. -/
def dockerReload (w : DockerWorld) (c : Nat) : Except DockerErr ContStatus :=
  match w.status c with
  | none => Except.error DockerErr.notFound
  | some s => Except.ok s

/-- `container.stop()`: `NotFound` when gone, `APIError` when the daemon is
faulty, otherwise the container becomes `exited`. -/
def dockerStop (w : DockerWorld) (c : Nat) : Except DockerErr DockerWorld :=
  if w.stopError then Except.error DockerErr.apiError
  else
    match w.status c with
    | none => Except.error DockerErr.notFound
    | some _ =>
      Except.ok ⟨fun n => if n = c then some ContStatus.exited else w.status n, w.stopError⟩

/-- `container.remove(force=True)`: `NotFound` when already gone, otherwise
the container is removed. -/
def dockerRemove (w : DockerWorld) (c : Nat) : Except DockerErr DockerWorld :=
  match w.status c with
  | none => Except.error DockerErr.notFound
  | some _ => Except.ok ⟨fun n => if n = c then none else w.status n, w.stopError⟩

/-- `KaliContainer.destroy`: `reload`; `stop` if the status is `running` or
`created`; `remove(force=True)`; the whole body wrapped in
`try ... except docker.errors.NotFound: pass`.  Returns the world after the
call together with the exception escaping `destroy`, if any (side effects
performed before an exception persist, as in Python). -/
def destroy (w : DockerWorld) (c : Nat) : DockerWorld × Option DockerErr :=
  match dockerReload w c with
  | Except.error DockerErr.notFound => (w, none)
  | Except.error e => (w, some e)
  | Except.ok st =>
    match
      (if st = ContStatus.running ∨ st = ContStatus.created
        then dockerStop w c else Except.ok w) with
    | Except.error DockerErr.notFound => (w, none)
    | Except.error e => (w, some e)
    | Except.ok w1 =>
      match dockerRemove w1 c with
      | Except.error DockerErr.notFound => (w1, none)
      | Except.error e => (w1, some e)
      | Except.ok w2 => (w2, none)

/-- Python `str.strip()` on the character list: drop whitespace from both
ends (structural recursion, unlike `String.trim`, so it evaluates by
`decide`/`rfl`). -/
def stripChars (l : List Char) : List Char :=
  ((l.dropWhile Char.isWhitespace).reverse.dropWhile Char.isWhitespace).reverse

/-- Python `str.strip()`. -/
def pyStrip (s : String) : String :=
  String.mk (stripChars s.data)

/-- `KaliContainer.send_command_and_get_output`: strip stdout and stderr; if
the stripped stderr is non-empty, append it to the output under the
`--- STDERR ---` marker; print an EMPTY RESULT warning (second component)
when the combined output is empty, and return the output either way. -/
def send_command_and_get_output (stdoutRaw stderrRaw : String) : String × Bool :=
  let output := pyStrip stdoutRaw
  let error_output := pyStrip stderrRaw
  let output :=
    if error_output = "" then output
    else output ++ "\n--- STDERR ---\n" ++ error_output
  (output, output == "")

/-- An HTTP-level response of the execution server: a 200 body or an
`HTTPException`-style status code with detail. -/
inductive HResp (α : Type)
  | ok (body : α)
  | err (code : Nat) (detail : String)
  deriving DecidableEq, Repr

/-- The execution server's state: the `active_sessions` dict (session id to
container) and the docker world. -/
structure ServerState where
  sessions : String → Option Nat
  world : DockerWorld

/-- Oracles for a `/session/execute` call: `exec c cmd` is the container's
ssh execution producing the raw (stdout, stderr) streams, or an exception
message; `format cmd out` is `_format_output_as_json` (LLM-backed, with its
own internal fallback), producing the JSON observation body. -/
structure ExecEnv where
  exec : Nat → String → Except String (String × String)
  format : String → String → String

/-- `execute_in_session` (`POST /session/execute`): look the session up in
`active_sessions`; 404 if absent; otherwise run the command in the
container, format the output, and return it; any exception becomes a 500. -/
def execute_in_session (ee : ExecEnv) (st : ServerState) (sid cmd : String) :
    HResp String × ServerState :=
  match st.sessions sid with
  | none => (HResp.err 404 "Session not found.", st)
  | some c =>
    match ee.exec c cmd with
    | Except.error msg => (HResp.err 500 ("Command execution failed: " ++ msg), st)
    | Except.ok (so, se) =>
      ((HResp.ok (ee.format cmd (send_command_and_get_output so se).1)), st)

/-- `end_session` (`POST /session/end`): `active_sessions.pop(session_id,
None)`; 404 if absent; otherwise destroy the container (an exception
escaping `destroy` surfaces as a 500, with the session already removed). -/
def end_session (st : ServerState) (sid : String) : HResp String × ServerState :=
  match st.sessions sid with
  | none => (HResp.err 404 "Session not found.", st)
  | some c =>
    let st1 : ServerState :=
      ⟨fun k => if k = sid then none else st.sessions k, st.world⟩
    match destroy st1.world c with
    | (w, none) => (HResp.ok "Session ended.", ⟨st1.sessions, w⟩)
    | (w, some _) => (HResp.err 500 "Internal Server Error", ⟨st1.sessions, w⟩)

/-- Length of the history stored in the session file (0 when the file is
absent or not a parsed record). -/
def storedHistLen : Option FileData → Nat
  | some (FileData.parsed r) => r.mission_history.length
  | _ => 0

/-- The relation between the loop state at one `choose_next_action` call and
the state at the next one: the previous call returned a non-terminal action
whose command/observation pair was appended to the history, the plan was
(possibly) updated, and a checkpoint of goal, updated plan, and updated
history was written — all before the next request. -/
def ReqStep (goal : String) (env : Env) (q q' : ReqState) : Prop :=
  q'.idx = q.idx + 1 ∧
  ∃ a obs np, env.steps q.idx = StepOutcome.act a obs (PlanUpd.ok np) ∧
    a.tool_name ≠ "finish_mission" ∧
    q'.plan = planAfter q.plan np ∧
    q'.hist = q.hist ++ [⟨a.tool_input, obs⟩] ∧
    q'.fs = some (save_content goal q'.plan q'.hist)

theorem execLoop_head (goal : String) (env : Env) (fuel i : Nat) (plan : List TaskNode)
    (hist : List HistoryEntry) (fs : Option FileData) :
    (execLoop goal env (fuel + 1) i plan hist fs).requests.head? = some ⟨i, plan, hist, fs⟩ := by
  cases hs : env.steps i with
  | interrupt => simp [execLoop, hs]
  | act a obs pu =>
    by_cases hfin : a.tool_name = "finish_mission"
    · simp [execLoop, hs, hfin]
    · cases pu with
      | interrupt => simp [execLoop, hs, hfin]
      | ok np =>
        by_cases hceil : 19 ≤ hist.length
        · simp [execLoop, hs, hfin, hceil]
        · simp [execLoop, hs, hfin, hceil]

theorem execLoop_chain (goal : String) (env : Env) :
    ∀ fuel i plan hist fs,
      List.Chain' (ReqStep goal env) (execLoop goal env fuel i plan hist fs).requests := by
  intro fuel
  induction fuel with
  | zero => intro i plan hist fs; simp [execLoop]
  | succ fuel ih =>
    intro i plan hist fs
    cases hs : env.steps i with
    | interrupt => simp [execLoop, hs]
    | act a obs pu =>
      by_cases hfin : a.tool_name = "finish_mission"
      · simp [execLoop, hs, hfin]
      · cases pu with
        | interrupt => simp [execLoop, hs, hfin]
        | ok np =>
          by_cases hceil : 19 ≤ hist.length
          · simp [execLoop, hs, hfin, hceil]
          · have hc2 : ¬ 20 ≤ (hist ++ [(⟨a.tool_input, obs⟩ : HistoryEntry)]).length := by
              simp only [List.length_append, List.length_singleton]; omega
            simp only [execLoop, hs, if_neg hfin, if_neg hc2]
            rw [List.chain'_cons']
            refine ⟨?_, ih _ _ _ _⟩
            intro q hq
            cases fuel with
            | zero => simp [execLoop] at hq
            | succ fuel =>
              rw [execLoop_head] at hq
              cases hq
              exact ⟨rfl, a, obs, np, hs, hfin, rfl, rfl, rfl⟩

theorem execLoop_hist_extends (goal : String) (env : Env) :
    ∀ fuel i plan hist fs, hist <+: (execLoop goal env fuel i plan hist fs).hist := by
  intro fuel
  induction fuel with
  | zero => intro i plan hist fs; simp [execLoop]
  | succ fuel ih =>
    intro i plan hist fs
    cases hs : env.steps i with
    | interrupt => simp [execLoop, hs]
    | act a obs pu =>
      by_cases hfin : a.tool_name = "finish_mission"
      · simp [execLoop, hs, hfin]
      · cases pu with
        | interrupt => simp [execLoop, hs, hfin]
        | ok np =>
          by_cases hceil : 19 ≤ hist.length
          · simp [execLoop, hs, hfin, hceil]
          · have hc2 : ¬ 20 ≤ (hist ++ [(⟨a.tool_input, obs⟩ : HistoryEntry)]).length := by
              simp only [List.length_append, List.length_singleton]; omega
            simp only [execLoop, hs, if_neg hfin, if_neg hc2]
            exact (List.prefix_append hist [⟨a.tool_input, obs⟩]).trans (ih _ _ _ _)

theorem execLoop_req_extends (goal : String) (env : Env) :
    ∀ fuel i plan hist fs, ∀ q ∈ (execLoop goal env fuel i plan hist fs).requests,
      q.hist <+: (execLoop goal env fuel i plan hist fs).hist := by
  intro fuel
  induction fuel with
  | zero => intro i plan hist fs; simp [execLoop]
  | succ fuel ih =>
    intro i plan hist fs q hq
    cases hs : env.steps i with
    | interrupt =>
      simp [execLoop, hs] at hq ⊢
      simp [hq]
    | act a obs pu =>
      by_cases hfin : a.tool_name = "finish_mission"
      · simp [execLoop, hs, hfin] at hq ⊢
        simp [hq]
      · cases pu with
        | interrupt =>
          simp [execLoop, hs, hfin] at hq ⊢
          simp [hq]
        | ok np =>
          by_cases hceil : 19 ≤ hist.length
          · simp [execLoop, hs, hfin, hceil] at hq ⊢
            simp [hq]
          · have hc2 : ¬ 20 ≤ (hist ++ [(⟨a.tool_input, obs⟩ : HistoryEntry)]).length := by
              simp only [List.length_append, List.length_singleton]; omega
            simp only [execLoop, hs, if_neg hfin, if_neg hc2] at hq ⊢
            rcases List.mem_cons.mp hq with hq | hq
            · subst hq
              exact (List.prefix_append hist [⟨a.tool_input, obs⟩]).trans
                (execLoop_hist_extends goal env _ _ _ _ _)
            · exact ih _ _ _ _ q hq

theorem execLoop_req_lt (goal : String) (env : Env) :
    ∀ fuel i plan hist fs, hist.length < 20 →
      ∀ q ∈ (execLoop goal env fuel i plan hist fs).requests, q.hist.length < 20 := by
  intro fuel
  induction fuel with
  | zero => intro i plan hist fs _; simp [execLoop]
  | succ fuel ih =>
    intro i plan hist fs hlen q hq
    cases hs : env.steps i with
    | interrupt =>
      simp [execLoop, hs] at hq
      simp [hq, hlen]
    | act a obs pu =>
      by_cases hfin : a.tool_name = "finish_mission"
      · simp [execLoop, hs, hfin] at hq
        simp [hq, hlen]
      · cases pu with
        | interrupt =>
          simp [execLoop, hs, hfin] at hq
          simp [hq, hlen]
        | ok np =>
          by_cases hceil : 19 ≤ hist.length
          · simp [execLoop, hs, hfin, hceil] at hq
            simp [hq, hlen]
          · have hc2 : ¬ 20 ≤ (hist ++ [(⟨a.tool_input, obs⟩ : HistoryEntry)]).length := by
              simp only [List.length_append, List.length_singleton]; omega
            simp only [execLoop, hs, if_neg hfin, if_neg hc2] at hq
            rcases List.mem_cons.mp hq with hq | hq
            · subst hq; exact hlen
            · refine ih _ _ _ _ ?_ q hq
              simp only [List.length_append, List.length_singleton] at hceil ⊢
              omega

theorem execLoop_hist_le (goal : String) (env : Env) :
    ∀ fuel i plan hist fs, hist.length < 20 →
      (execLoop goal env fuel i plan hist fs).hist.length ≤ 20 := by
  intro fuel
  induction fuel with
  | zero => intro i plan hist fs hlen; simp [execLoop]; omega
  | succ fuel ih =>
    intro i plan hist fs hlen
    cases hs : env.steps i with
    | interrupt => simp [execLoop, hs]; omega
    | act a obs pu =>
      by_cases hfin : a.tool_name = "finish_mission"
      · simp [execLoop, hs, hfin]; omega
      · cases pu with
        | interrupt => simp [execLoop, hs, hfin]; omega
        | ok np =>
          by_cases hceil : 19 ≤ hist.length
          · have hc2 : 20 ≤ (hist ++ [(⟨a.tool_input, obs⟩ : HistoryEntry)]).length := by
              simp only [List.length_append, List.length_singleton]; omega
            simp only [execLoop, hs, if_neg hfin, if_pos hc2]
            simp only [List.length_append, List.length_singleton]
            omega
          · have hc2 : ¬ 20 ≤ (hist ++ [(⟨a.tool_input, obs⟩ : HistoryEntry)]).length := by
              simp only [List.length_append, List.length_singleton]; omega
            simp only [execLoop, hs, if_neg hfin, if_neg hc2]
            refine ih _ _ _ _ ?_
            simp only [List.length_append, List.length_singleton] at hceil ⊢
            omega

theorem execLoop_fuel_enough (goal : String) (env : Env) :
    ∀ fuel i plan hist fs, 20 - hist.length < fuel →
      (execLoop goal env fuel i plan hist fs).fuelOut = false := by
  intro fuel
  induction fuel with
  | zero => intro i plan hist fs h; omega
  | succ fuel ih =>
    intro i plan hist fs hfuel
    cases hs : env.steps i with
    | interrupt => simp [execLoop, hs]
    | act a obs pu =>
      by_cases hfin : a.tool_name = "finish_mission"
      · simp [execLoop, hs, hfin]
      · cases pu with
        | interrupt => simp [execLoop, hs, hfin]
        | ok np =>
          by_cases hceil : 19 ≤ hist.length
          · simp [execLoop, hs, hfin, hceil]
          · have hc2 : ¬ 20 ≤ (hist ++ [(⟨a.tool_input, obs⟩ : HistoryEntry)]).length := by
              simp only [List.length_append, List.length_singleton]; omega
            simp only [execLoop, hs, if_neg hfin, if_neg hc2]
            refine ih _ _ _ _ ?_
            simp only [List.length_append, List.length_singleton] at hceil ⊢
            omega

theorem execLoop_fs_ne_none (goal : String) (env : Env) :
    ∀ fuel i plan hist fs, fs ≠ none →
      (execLoop goal env fuel i plan hist fs).fs ≠ none := by
  intro fuel
  induction fuel with
  | zero => intro i plan hist fs hfs; simpa [execLoop] using hfs
  | succ fuel ih =>
    intro i plan hist fs hfs
    cases hs : env.steps i with
    | interrupt => simpa [execLoop, hs] using hfs
    | act a obs pu =>
      by_cases hfin : a.tool_name = "finish_mission"
      · simpa [execLoop, hs, hfin] using hfs
      · cases pu with
        | interrupt => simpa [execLoop, hs, hfin] using hfs
        | ok np =>
          by_cases hceil : 19 ≤ hist.length
          · simp [execLoop, hs, hfin, hceil]
          · have hc2 : ¬ 20 ≤ (hist ++ [(⟨a.tool_input, obs⟩ : HistoryEntry)]).length := by
              simp only [List.length_append, List.length_singleton]; omega
            simp only [execLoop, hs, if_neg hfin, if_neg hc2]
            exact ih _ _ _ _ (by simp)

theorem load_state_resumed_fs (goal : String) (fs0 : Option FileData) (ld : LoadOutcome)
    (h : load_state goal fs0 = Except.ok ld) (hres : ld.resumed = true) : ld.fs ≠ none := by
  cases fs0 with
  | none =>
    simp only [load_state, Except.ok.injEq] at h
    subst h; simp at hres
  | some fd =>
    cases fd with
    | garbled =>
      simp only [load_state, Except.ok.injEq] at h
      subst h; simp at hres
    | nonDict => simp [load_state] at h
    | parsed rc =>
      by_cases hg : rc.goal = goal
      · simp only [load_state, hg, ne_eq, not_true_eq_false, if_false, ite_false,
          if_neg, not_false_eq_true] at h
        cases hp : parsePlan rc.planData with
        | none =>
          rw [hp] at h
          simp only [Except.ok.injEq] at h
          subst h; simp at hres
        | some plan =>
          rw [hp] at h
          simp only [Except.ok.injEq] at h
          subst h; simp
      · simp only [load_state, hg, ne_eq, not_false_eq_true, if_pos, if_true, ite_true,
          Except.ok.injEq] at h
        subst h; simp at hres

theorem generate_final_report_last (history : List HistoryEntry) (last : HistoryEntry)
    (hgl : history.getLast? = some last) :
    generate_final_report history
      = if last.command = "finish_mission" then Except.error "AttributeError"
        else Except.ok (some history) := by
  have hemp : history.isEmpty = false := by
    cases history with
    | nil => simp at hgl
    | cons a t => rfl
  by_cases hc : last.command = "finish_mission"
  · simp [generate_final_report, create_report, hgl, hemp, hc, Except.map]
  · simp [generate_final_report, create_report, hgl, hemp, hc, Except.map]

theorem load_state_hist_le (goal : String) (fs0 : Option FileData) (ld : LoadOutcome)
    (h : load_state goal fs0 = Except.ok ld) : ld.hist.length ≤ storedHistLen fs0 := by
  cases fs0 with
  | none =>
    simp only [load_state, Except.ok.injEq] at h
    subst h; simp [storedHistLen]
  | some fd =>
    cases fd with
    | garbled =>
      simp only [load_state, Except.ok.injEq] at h
      subst h; simp [storedHistLen]
    | nonDict => simp [load_state] at h
    | parsed rc =>
      by_cases hg : rc.goal = goal
      · simp only [load_state, hg, ne_eq, not_true_eq_false, if_false, ite_false,
          if_neg, not_false_eq_true] at h
        cases hp : parsePlan rc.planData with
        | none =>
          rw [hp] at h
          simp only [Except.ok.injEq] at h
          subst h; simp [storedHistLen]
        | some plan =>
          rw [hp] at h
          simp only [Except.ok.injEq] at h
          subst h; simp [storedHistLen]
      · simp only [load_state, hg, ne_eq, not_false_eq_true, if_pos, if_true, ite_true,
          Except.ok.injEq] at h
        subst h; simp [storedHistLen]

theorem run_model_inv (goal : String) (env : Env) (fs0 : Option FileData) (r : RunResult)
    (h : run_model goal env fs0 = Except.ok r) :
    (∃ fs plan, r = abortResult fs plan) ∨
    (∃ plan0 hist0 fsL, hist0.length ≤ storedHistLen fs0 ∧ fsL ≠ none ∧
      r = finalize (execLoop goal env 21 0 plan0 hist0 fsL)) := by
  unfold run_model at h
  cases hl : load_state goal fs0 with
  | error e => rw [hl] at h; simp at h
  | ok ld =>
    rw [hl] at h
    dsimp only at h
    by_cases hres : ld.resumed = true
    · rw [if_pos hres] at h
      simp only [Except.ok.injEq] at h
      exact Or.inr ⟨ld.plan, ld.hist, ld.fs, load_state_hist_le goal fs0 ld hl,
        load_state_resumed_fs goal fs0 ld hl hres, h.symm⟩
    · rw [if_neg hres] at h
      cases hpp : env.planPhase with
      | raises =>
        rw [hpp] at h
        dsimp only at h
        simp only [Except.ok.injEq] at h
        exact Or.inl ⟨ld.fs, [], h.symm⟩
      | made p =>
        rw [hpp] at h
        dsimp only at h
        by_cases hemp : p.isEmpty = true
        · rw [if_pos hemp] at h
          simp only [Except.ok.injEq] at h
          exact Or.inl ⟨ld.fs, p, h.symm⟩
        · rw [if_neg hemp] at h
          by_cases happ : env.approve = false
          · rw [if_pos happ] at h
            simp only [Except.ok.injEq] at h
            exact Or.inl ⟨ld.fs, p, h.symm⟩
          · rw [if_neg happ] at h
            simp only [Except.ok.injEq] at h
            exact Or.inr ⟨p, [], some (save_content goal p []),
              by simp [storedHistLen], by simp, h.symm⟩

theorem destroy_no_fault (w : DockerWorld) (c : Nat) (hw : w.stopError = false) :
    (destroy w c).2 = none ∧ (destroy w c).1.status c = none ∧
      (destroy w c).1.stopError = false := by
  unfold destroy dockerReload dockerStop dockerRemove
  cases hst : w.status c with
  | none => simp [hst, hw]
  | some s => cases s <;> simp [hst, hw]

/-- C1, counterexample: a run can end with the session file still on disk
and no report step.  With a garbled (unparseable) session file left over,
`_load_state` returns `False` without deleting it; if the operator then
rejects the proposed plan, `run` returns from the planning phase before the
`try/finally` around the execution loop, so neither `_generate_final_report`
nor the checkpoint deletion happens, and the garbled checkpoint file
survives `run()`. -/
theorem C1_counterexample :
    ∃ r, run_model "g"
        ⟨PlanPhase.made [⟨1, "t", TaskStatus.pending⟩], false, fun _ => StepOutcome.interrupt⟩
        (some FileData.garbled) = Except.ok r ∧
      r.fsFinal = some FileData.garbled ∧ r.reportInvoked = false :=
  ⟨_, rfl, rfl, rfl⟩

/-- C1, amended: every termination of a run that entered the execution loop
invokes the final-report step in the `finally` block; when the final history
is empty, no report is written, nothing is raised, and the checkpoint is
deleted; when the final history ends with an entry whose command is not the
terminal sentinel, a complete report is generated from the full history and
the checkpoint is deleted; but when the final history ends with the sentinel
entry — i.e. on normal completion via `finish_mission`, including the
planning-failure sentinel — `create_report` raises `AttributeError` on the
string observation's `.get`, the checkpoint deletion in the `finally` suite
is skipped (the checkpoint file survives `run()`), and the exception
propagates out of `run`.  Planning-phase aborts (empty plan, operator
rejection, planning exception) return early and do none of this. -/
theorem C1_cleanup_after_execution (goal : String) (env : Env) (fs0 : Option FileData)
    (r : RunResult) (h : run_model goal env fs0 = Except.ok r)
    (hloop : r.enteredLoop = true) :
    r.reportInvoked = true ∧
    (r.history = [] → r.fsFinal = none ∧ r.raised = none ∧ r.reported = none) ∧
    (∀ last, r.history.getLast? = some last →
      (last.command ≠ "finish_mission" →
        r.fsFinal = none ∧ r.raised = none ∧ r.reported = some r.history) ∧
      (last.command = "finish_mission" →
        r.raised = some "AttributeError" ∧ r.fsFinal ≠ none ∧ r.reported = none)) := by
  rcases run_model_inv goal env fs0 r h with ⟨fs, plan, rfl⟩ | ⟨p0, h0, fsL, _, hfs, rfl⟩
  · simp [abortResult] at hloop
  · have hfsL : (execLoop goal env 21 0 p0 h0 fsL).fs ≠ none :=
      execLoop_fs_ne_none goal env 21 0 p0 h0 fsL hfs
    refine ⟨rfl, ?_, ?_⟩
    · intro hnil
      have hnil' : (execLoop goal env 21 0 p0 h0 fsL).hist = [] := hnil
      simp [finalize, generate_final_report, hnil']
    · intro last hgl
      have hgl' : (execLoop goal env 21 0 p0 h0 fsL).hist.getLast? = some last := hgl
      have hg := generate_final_report_last _ last hgl'
      constructor
      · intro hc
        rw [if_neg hc] at hg
        simp [finalize, hg]
      · intro hc
        rw [if_pos hc] at hg
        simp only [finalize, hg]
        exact ⟨trivial, hfsL, trivial⟩

/-- Witness for C1: a concrete approved run that finishes via the sentinel
action satisfies the hypotheses; the report step raises and the checkpoint
survives, as the amended claim states. -/
theorem C1_witness :
    ∃ r, run_model "g"
        ⟨PlanPhase.made [⟨1, "t", TaskStatus.pending⟩], true,
          fun _ => StepOutcome.act ⟨"finish_mission", "done"⟩ none (PlanUpd.ok none)⟩
        none = Except.ok r ∧
      r.enteredLoop = true ∧
      (r.reportInvoked = true ∧
       (r.history = [] → r.fsFinal = none ∧ r.raised = none ∧ r.reported = none) ∧
       (∀ last, r.history.getLast? = some last →
         (last.command ≠ "finish_mission" →
           r.fsFinal = none ∧ r.raised = none ∧ r.reported = some r.history) ∧
         (last.command = "finish_mission" →
           r.raised = some "AttributeError" ∧ r.fsFinal ≠ none ∧ r.reported = none))) :=
  ⟨_, rfl, rfl, C1_cleanup_after_execution "g"
    ⟨PlanPhase.made [⟨1, "t", TaskStatus.pending⟩], true,
      fun _ => StepOutcome.act ⟨"finish_mission", "done"⟩ none (PlanUpd.ok none)⟩
    none _ rfl rfl⟩

/-- C2, code bug: the claim describes the loop routing each non-terminal
action's command to the execution layer, obtaining an observation, appending
the pair and persisting a checkpoint.  In the shipped code this never
happens: the loop body calls `self.mcp_client.execute_command(action.
tool_input)` with one positional argument, but the shipped session-based
client requires `(session_id, command)`, so Python raises `TypeError` at the
call — not caught by the loop's `except (APITimeoutError,
KeyboardInterrupt)` — and for every non-terminal action no observation is
obtained, nothing is appended, and no checkpoint is written.  The second
conjunct shows the two-argument binding the shipped client's signature
requires; the third evaluates the shipped client's body, which returns an
observation dict, not the `(filename, file_content)` tuple the call site
unpacks. -/
theorem C2_execute_call_raises_type_error :
    (∀ tool_input : String,
      loop_execute_call tool_input
        = Except.error "TypeError: missing required positional argument") ∧
    bindArgs execute_command_params ["abc123", "nmap -F host-x"]
      = Except.ok [("session_id", "abc123"), ("command", "nmap -F host-x")] ∧
    execute_command (fun _ _ => Except.error "connection refused") "abc123" "nmap -F host-x"
      = ⟨"FAILURE", "Agent-side connection error: connection refused", ""⟩ :=
  ⟨fun _ => rfl, rfl, rfl⟩

/-- C3, code bug: the claim says a checkpoint whose content is not
well-formed is treated as "not found" with a warning and the mission never
crashes.  The `except` clause of `_load_state` catches only
`json.JSONDecodeError` and `TypeError`; for a session file whose content is
well-formed JSON but not an object (e.g. `[]`), `state.get("goal")` raises
`AttributeError`, which escapes `_load_state` and crashes the mission.  (For
contrast, a file that fails JSON parsing is caught and handled as the claim
says.) -/
theorem C3_nonobject_checkpoint_crashes :
    load_state "scan host X" (some FileData.nonDict) = Except.error "AttributeError" ∧
    load_state "scan host X" (some FileData.garbled)
      = Except.ok ⟨false, some FileData.garbled, [], [], true⟩ :=
  ⟨rfl, rfl⟩

/-- C4, counterexample: a reachable loop state can request an action with
history length 20.  `_save_state` writes a checkpoint with 20 history
entries just before the step-ceiling break; if the process dies before the
`finally` deletes it, the next run resumes it, and the loop head requests an
action before any ceiling check — here the single request of the run carries
a history of length 20. -/
theorem C4_counterexample :
    ∃ r, run_model "g"
        ⟨PlanPhase.made [], true,
          fun _ => StepOutcome.act ⟨"finish_mission", "done"⟩ none (PlanUpd.ok none)⟩
        (some (FileData.parsed ⟨"g", [TaskData.good ⟨1, "t", TaskStatus.pending⟩],
          List.replicate 20 ⟨"c", some "o"⟩⟩)) = Except.ok r ∧
      ∃ q ∈ r.requests, 20 ≤ q.hist.length := by
  refine ⟨_, rfl, ?_⟩
  decide

/-- C4, amended: provided the run does not resume a checkpoint whose stored
history already has length ≥ 20 (a crash between the step-20 save and the
`finally` cleanup can leave one), every loop state at which an action is
requested has history length strictly less than 20, and the final history
never exceeds 20 entries — once the length reaches 20 the bottom-of-
iteration check terminates the loop without a further request. -/
theorem C4_step_ceiling (goal : String) (env : Env) (fs0 : Option FileData)
    (r : RunResult) (hstored : storedHistLen fs0 < 20)
    (h : run_model goal env fs0 = Except.ok r) :
    (∀ q ∈ r.requests, q.hist.length < 20) ∧ r.history.length ≤ 20 := by
  rcases run_model_inv goal env fs0 r h with ⟨fs, plan, rfl⟩ | ⟨p0, h0, fsL, hle, hfsL, rfl⟩
  · simp [abortResult]
  · have h0lt : h0.length < 20 := lt_of_le_of_lt hle hstored
    refine ⟨?_, ?_⟩
    · intro q hq
      exact execLoop_req_lt goal env 21 0 p0 h0 fsL h0lt q (by simpa [finalize] using hq)
    · simpa [finalize] using execLoop_hist_le goal env 21 0 p0 h0 fsL h0lt

/-- Witness for C4: a concrete fresh run (no checkpoint on disk) satisfies
the hypotheses and the ceiling conclusions. -/
theorem C4_witness :
    ∃ r, run_model "g"
        ⟨PlanPhase.made [⟨1, "t", TaskStatus.pending⟩], true,
          fun _ => StepOutcome.act ⟨"finish_mission", "done"⟩ none (PlanUpd.ok none)⟩
        none = Except.ok r ∧
      ((∀ q ∈ r.requests, q.hist.length < 20) ∧ r.history.length ≤ 20) :=
  ⟨_, rfl, C4_step_ceiling "g"
    ⟨PlanPhase.made [⟨1, "t", TaskStatus.pending⟩], true,
      fun _ => StepOutcome.act ⟨"finish_mission", "done"⟩ none (PlanUpd.ok none)⟩
    none _ (by decide) rfl⟩

/-- C5: for a registered session, `end` removes the registry entry and
destroys its sandbox (here: under a non-faulty daemon); a second `end` on
the same id answers 404 without crashing and without further effects; and
`execute` after `end` answers 404 with the server state unchanged (no
sandbox side effects). -/
theorem C5_execute_after_end (ee : ExecEnv) (st : ServerState) (sid cmd : String) (c : Nat)
    (hs : st.sessions sid = some c) (hw : st.world.stopError = false) :
    (end_session st sid).1 = HResp.ok "Session ended." ∧
    (end_session st sid).2.sessions sid = none ∧
    (end_session st sid).2.world.status c = none ∧
    end_session (end_session st sid).2 sid
      = (HResp.err 404 "Session not found.", (end_session st sid).2) ∧
    execute_in_session ee (end_session st sid).2 sid cmd
      = (HResp.err 404 "Session not found.", (end_session st sid).2) := by
  obtain ⟨h2, hstat, hse⟩ := destroy_no_fault st.world c hw
  rcases hdp : destroy st.world c with ⟨w', e'⟩
  rw [hdp] at h2 hstat
  dsimp only at h2 hstat
  subst h2
  have hend : end_session st sid =
      (HResp.ok "Session ended.", ⟨fun k => if k = sid then none else st.sessions k, w'⟩) := by
    simp only [end_session, hs]
    rw [hdp]
  rw [hend]
  refine ⟨rfl, by simp, hstat, ?_, ?_⟩
  · simp [end_session]
  · simp [execute_in_session]

/-- Witness for C5: a concrete one-session server state with a running
container and a healthy daemon. -/
theorem C5_witness :
    (end_session ⟨fun k => if k = "s" then some 0 else none,
        ⟨fun _ => some ContStatus.running, false⟩⟩ "s").2.sessions "s" = none ∧
    (execute_in_session ⟨fun _ _ => Except.error "x", fun _ o => o⟩
        (end_session ⟨fun k => if k = "s" then some 0 else none,
          ⟨fun _ => some ContStatus.running, false⟩⟩ "s").2 "s" "ls").1
      = HResp.err 404 "Session not found." := by
  obtain ⟨h1, h2, h3, h4, h5⟩ := C5_execute_after_end
    ⟨fun _ _ => Except.error "x", fun _ o => o⟩
    ⟨fun k => if k = "s" then some 0 else none, ⟨fun _ => some ContStatus.running, false⟩⟩
    "s" "ls" 0 rfl rfl
  exact ⟨h2, by rw [h5]⟩

/-- C6, counterexample: destruction errors other than "not found" do
propagate past `destroy`.  With a daemon that answers `stop` with an
`APIError` and the container still running, `destroy` raises the error; the
`end_session` handler does not catch it, so it escapes as a 500. -/
theorem C6_counterexample :
    (destroy ⟨fun _ => some ContStatus.running, true⟩ 0).2 = some DockerErr.apiError ∧
    (end_session ⟨fun k => if k = "s" then some 0 else none,
        ⟨fun _ => some ContStatus.running, true⟩⟩ "s").1
      = HResp.err 500 "Internal Server Error" :=
  ⟨rfl, rfl⟩

/-- C6, amended: `destroy` is idempotent and total with respect to an
already-removed sandbox — if the underlying container is gone it treats
"not found" as success, raises nothing, and changes nothing — and a
not-found error never propagates out of `destroy`; destruction errors other
than not-found (daemon API errors) do propagate to the caller. -/
theorem C6_destroy_notfound_is_success (w : DockerWorld) (c : Nat) :
    (w.status c = none → destroy w c = (w, none)) ∧
      (destroy w c).2 ≠ some DockerErr.notFound := by
  constructor
  · intro h
    unfold destroy dockerReload
    simp [h]
  · unfold destroy dockerReload dockerStop dockerRemove
    cases hst : w.status c with
    | none => simp
    | some s =>
      cases hse : w.stopError <;> cases s <;> simp [hst, hse]

/-- Witness for C6: destroying an already-gone container succeeds without
error and leaves the world unchanged. -/
theorem C6_witness :
    destroy ⟨fun _ => none, false⟩ 7 = (⟨fun _ => none, false⟩, none) :=
  (C6_destroy_notfound_is_success ⟨fun _ => none, false⟩ 7).1 rfl

/-- C7: whenever the collaborator's reply for the next-action decision fails
to validate (`model_validate_json` raises, modelled by the parse oracle
returning `none` on the cleaned response), `choose_next_action` returns the
terminal sentinel `finish_mission` with a failure message instead of
raising; fed to the execution loop, that action ends the loop on that very
step: the sentinel entry is appended, no further action is requested, and
the loop exits without interruption. -/
theorem C7_invalid_output_becomes_sentinel (parse : String → Option ToolSelection)
    (s : String) (hparse : parse (clean_json_response s) = none) :
    choose_next_action parse (LLMResp.content s)
      = Except.ok ⟨"finish_mission", "Mission failed: The AI produced an invalid JSON response."⟩ ∧
    ∀ goal env fuel i plan hist fs obs pu,
      env.steps i = StepOutcome.act
        ⟨"finish_mission", "Mission failed: The AI produced an invalid JSON response."⟩ obs pu →
      (execLoop goal env (fuel + 1) i plan hist fs).hist
          = hist ++ [⟨"finish_mission",
              some "Mission failed: The AI produced an invalid JSON response."⟩] ∧
        (execLoop goal env (fuel + 1) i plan hist fs).requests = [⟨i, plan, hist, fs⟩] ∧
        (execLoop goal env (fuel + 1) i plan hist fs).interrupted = false := by
  refine ⟨?_, ?_⟩
  · simp [choose_next_action, hparse]
  · intro goal env fuel i plan hist fs obs pu hs
    refine ⟨?_, ?_, ?_⟩ <;> simp [execLoop, hs]

/-- Witness for C7: a parse oracle rejecting everything and a reply with no
JSON bracket pair satisfy the hypothesis; the sentinel is returned. -/
theorem C7_witness :
    choose_next_action (fun _ => none) (LLMResp.content "oops")
      = Except.ok ⟨"finish_mission", "Mission failed: The AI produced an invalid JSON response."⟩ :=
  (C7_invalid_output_becomes_sentinel (fun _ => none) "oops" rfl).1

/-- C8: the text returned by one sandbox command execution is the stripped
standard output with a non-empty stripped standard-error stream appended
under the `--- STDERR ---` marker (never discarded); an empty combined
result is flagged by the EMPTY RESULT warning but returned normally — the
warning flag is raised exactly when the returned text is empty. -/
theorem C8_stderr_appended_empty_flagged (so se : String) :
    (pyStrip se ≠ "" →
      (send_command_and_get_output so se).1 = pyStrip so ++ "\n--- STDERR ---\n" ++ pyStrip se) ∧
    (pyStrip se = "" → (send_command_and_get_output so se).1 = pyStrip so) ∧
    ((send_command_and_get_output so se).2 = true ↔ (send_command_and_get_output so se).1 = "") := by
  unfold send_command_and_get_output
  by_cases h : pyStrip se = "" <;> simp [h]

/-- Witness for C8: concrete streams with surrounding whitespace; stderr is
preserved under the marker. -/
theorem C8_witness :
    (send_command_and_get_output "ok\n" " err ").1 = "ok" ++ "\n--- STDERR ---\n" ++ "err" :=
  (C8_stderr_appended_empty_flagged "ok\n" " err ").1 (by decide)

/-- C9: across a mission's execution loop the history is append-only and its
length strictly increases: between consecutive action requests the earlier
history is a prefix of the later one (no removal, reordering, or
deduplication) with strictly greater length, and the history seen at every
request is a prefix of the run's final history. -/
theorem C9_history_append_only (goal : String) (env : Env) (fs0 : Option FileData)
    (r : RunResult) (h : run_model goal env fs0 = Except.ok r) :
    List.Chain' (fun q q' : ReqState =>
      q.hist <+: q'.hist ∧ q.hist.length < q'.hist.length) r.requests ∧
    ∀ q ∈ r.requests, q.hist <+: r.history := by
  rcases run_model_inv goal env fs0 r h with ⟨fs, plan, rfl⟩ | ⟨p0, h0, fsL, _, _, rfl⟩
  · simp [abortResult]
  · refine ⟨?_, ?_⟩
    · refine List.Chain'.imp ?_ (by simpa [finalize] using execLoop_chain goal env 21 0 p0 h0 fsL)
      intro q q' hstep
      obtain ⟨_, a, obs, np, _, _, _, hh, _⟩ := hstep
      rw [hh]
      exact ⟨List.prefix_append _ _, by simp⟩
    · intro q hq
      simpa [finalize] using
        execLoop_req_extends goal env 21 0 p0 h0 fsL q (by simpa [finalize] using hq)

/-- Witness for C9: a concrete two-step run; its request histories chain by
strict prefix and embed into the final history. -/
theorem C9_witness :
    ∃ r, run_model "g"
        ⟨PlanPhase.made [⟨1, "t", TaskStatus.pending⟩], true,
          fun i => if i = 0 then StepOutcome.act ⟨"os_command", "nmap -F host-x"⟩
              (some "22/tcp open ssh") (PlanUpd.ok none)
            else StepOutcome.act ⟨"finish_mission", "Port 22 open"⟩ none (PlanUpd.ok none)⟩
        none = Except.ok r ∧
      (List.Chain' (fun q q' : ReqState =>
        q.hist <+: q'.hist ∧ q.hist.length < q'.hist.length) r.requests ∧
      ∀ q ∈ r.requests, q.hist <+: r.history) :=
  ⟨_, rfl, C9_history_append_only "g"
    ⟨PlanPhase.made [⟨1, "t", TaskStatus.pending⟩], true,
      fun i => if i = 0 then StepOutcome.act ⟨"os_command", "nmap -F host-x"⟩
          (some "22/tcp open ssh") (PlanUpd.ok none)
        else StepOutcome.act ⟨"finish_mission", "Port 22 open"⟩ none (PlanUpd.ok none)⟩
    none _ rfl⟩

/-- C10: loading a checkpoint whose stored goal differs from the current
invocation's goal does not merely report "not found": `_load_state` also
deletes the session file from disk, leaving no resume record, and returns
with empty plan and history (and a warning logged). -/
theorem C10_goal_mismatch_deletes_checkpoint (goal : String) (r : RawCheckpoint)
    (hg : r.goal ≠ goal) :
    load_state goal (some (FileData.parsed r)) = Except.ok ⟨false, none, [], [], true⟩ := by
  simp [load_state, hg]

/-- Witness for C10: a checkpoint for goal "A" loaded by an invocation with
goal "B" is deleted. -/
theorem C10_witness :
    load_state "B" (some (FileData.parsed ⟨"A", [], []⟩))
      = Except.ok ⟨false, none, [], [], true⟩ :=
  C10_goal_mismatch_deletes_checkpoint "B" ⟨"A", [], []⟩ (by decide)

end DawnYawn
